import Mathlib

/-!
Verification of the conflict-safe mutation client (`pkg/common/client.go`-style
rich client): shallow embedding of its data model, its mutating operations
(`getAndUpdate`, `getAndPatch`, `createOrPatchWithJsonMerge`, `CreateIfNotExist`,
`UpdateStatus`), and of the `client-go` retry machinery
(`wait.Backoff.Step`, `wait.ExponentialBackoff`, `retry.OnError`,
`retry.RetryOnConflict`) that wraps every exported mutating operation.

Remote-store calls are modelled by an oracle (`Store`) giving the response of
each kind of call, and every operation returns, besides its Go results, the
trace of store calls it issued, so that "performs zero writes", "body patch
before status patch" and similar claims become statements about that trace.
Machine floating point (backoff durations) is modelled over `ℚ`; the random
jitter draw of each sleep is an explicit parameter `rs : Nat → ℚ`.
-/

namespace KRT

mutual
/-- Generic tagged JSON-like tree: the shape `runtime.DefaultUnstructuredConverter`
produces (null / bool / number / text / ordered list / ordered map). -/
inductive JsonV where
  | null
  | boolean (b : Bool)
  | num (n : Int)
  | str (s : String)
  | arr (elems : JsonList)
  | object (fields : JsonFields)
deriving DecidableEq
inductive JsonList where
  | nil
  | cons (hd : JsonV) (tl : JsonList)
deriving DecidableEq
inductive JsonFields where
  | nil
  | cons (key : String) (val : JsonV) (tl : JsonFields)
deriving DecidableEq
end

/-- `types.NamespacedName` (= `client.ObjectKey`): namespace + name. -/
structure ObjectKey where
  ns : String
  name : String
deriving DecidableEq

/-- A `client.Object` as seen by the engine: its identity (metadata namespace
and name), its non-status content (`body`, everything of the unstructured map
except the `status` top-level field), and the optional `status` subtree
(`unstructured.NestedFieldCopy(u, "status")`). -/
structure KObject where
  ns : String
  name : String
  body : JsonFields
  status : Option JsonV
deriving DecidableEq

/-- `client.ObjectKeyFromObject`. -/
def objectKeyFromObject (o : KObject) : ObjectKey := ⟨o.ns, o.name⟩

/-- `unstructured.RemoveNestedField(u, "status")` applied to the unstructured
copy of an object: the document minus its status subtree. -/
def stripStatus (o : KObject) : KObject := { o with status := none }

/-- Error values returned by the remote store or by mutation functions, with
the classification used by `k8s.io/apimachinery/pkg/api/errors`:
`IsConflict`, `IsNotFound`, `IsAlreadyExists`; `identityViolation` is the
`fmt.Errorf("func() error cannot mutate object name and/or object namespace")`
produced by `mutate`; `other` is any unclassified error. -/
inductive KErr where
  | conflict (msg : String)
  | notFound (msg : String)
  | alreadyExists (msg : String)
  | identityViolation
  | other (msg : String)
deriving DecidableEq

/-- `utilerrors.IsConflict`. -/
def KErr.isConflict : KErr → Bool
  | .conflict _ => true
  | _ => false

/-- `utilerrors.IsNotFound`. -/
def KErr.isNotFound : KErr → Bool
  | .notFound _ => true
  | _ => false

/-- `utilerrors.IsAlreadyExists`. -/
def KErr.isAlreadyExists : KErr → Bool
  | .alreadyExists _ => true
  | _ => false

/-- One call issued against the remote store. Writes carry the object (or
patch target) sent on the wire at the moment of the call. -/
inductive Call where
  | get
  | create (o : KObject)
  | update (o : KObject)
  | patchBody (o : KObject)
  | patchStatus (o : KObject)
  | statusUpdate (o : KObject)
deriving DecidableEq

/-- A call that writes to the store (everything except `Get`). -/
def Call.isWrite : Call → Bool
  | .get => false
  | _ => true

def Call.isGet : Call → Bool
  | .get => true
  | _ => false

def Call.isBodyPatch : Call → Bool
  | .patchBody _ => true
  | _ => false

def Call.isStatusPatch : Call → Bool
  | .patchStatus _ => true
  | _ => false

def Call.isCreate : Call → Bool
  | .create _ => true
  | _ => false

/-- Oracle for the remote store inside one attempt: the result of `Get` for
the operated key, and, for each kind of write, either the error it fails with
or the stored object the server writes back into the in-place argument. -/
structure Store where
  getRes : Except KErr KObject
  createRes : KObject → Except KErr KObject
  updateRes : KObject → Except KErr KObject
  patchRes : KObject → Except KErr KObject
  statusPatchRes : KObject → Except KErr KObject
  statusUpdateRes : KObject → Except KErr KObject

/-- A caller-supplied mutation function (`func() error` mutating `obj` in
place): from the current object to the mutated object, or an error. -/
def Mutator : Type := KObject → Except KErr KObject

/-- `controllerutil.OperationResult` is a Go string type; these are its values. -/
def OperationResultNone : String := "unchanged"

def OperationResultCreated : String := "created"

def OperationResultUpdated : String := "updated"

def OperationResultUpdatedStatus : String := "updatedStatus"

def OperationResultUpdatedStatusOnly : String := "updatedStatusOnly"

/-- Result of one attempt of an operation: the `OperationResult`, the returned
error, the final in-place state of `obj`, and the trace of store calls. -/
structure OpOut where
  result : String
  err : Option KErr
  obj : KObject
  calls : List Call
deriving DecidableEq

/-- `mutate` (client.go line 88): run `f`, then fail if the object key changed. -/
def mutate (f : Mutator) (key : ObjectKey) (obj : KObject) : Except KErr KObject :=
  match f obj with
  | .error e => .error e
  | .ok o' => if objectKeyFromObject o' ≠ key then .error .identityViolation else .ok o'

/-- One attempt of `getAndUpdate` (client.go line 101): Get, mutate, compare
semantically, Update only on difference. -/
def getAndUpdate (st : Store) (obj : KObject) (f : Mutator) : OpOut :=
  let key := objectKeyFromObject obj
  match st.getRes with
  | .error e => ⟨OperationResultNone, some e, obj, [.get]⟩
  | .ok cur =>
    match mutate f key cur with
    | .error e => ⟨OperationResultNone, some e, cur, [.get]⟩
    | .ok m =>
      if m = cur then ⟨OperationResultNone, none, m, [.get]⟩
      else
        match st.updateRes m with
        | .error e => ⟨OperationResultNone, some e, m, [.get, .update m]⟩
        | .ok o' => ⟨OperationResultUpdated, none, o', [.get, .update m]⟩

/-- The `if f != nil` guard around `mutate` in `getAndPatch` (line 152): a nil
mutation function is skipped entirely (no call, no identity check). -/
def applyMutator (f : Option Mutator) (key : ObjectKey) (obj : KObject) : Except KErr KObject :=
  match f with
  | none => .ok obj
  | some g => mutate g key obj

/-- One attempt of `getAndPatch` (client.go line 122): Get; split the before
snapshot into status (`NestedFieldCopy "status"`) and the rest
(`RemoveNestedField "status"`); mutate (when non-nil); split the after snapshot
the same way; Patch the body iff the status-stripped documents differ; then,
iff a status exists on either side and the status subtrees differ, Status-Patch
— against the just-patched object with its status re-set to the post-mutation
status when a body patch was issued before. -/
def getAndPatch (st : Store) (obj : KObject) (f : Option Mutator) : OpOut :=
  let key := objectKeyFromObject obj
  match st.getRes with
  | .error e => ⟨OperationResultNone, some e, obj, [.get]⟩
  | .ok cur =>
    let beforeStatus := cur.status
    let hasBeforeStatus := cur.status.isSome
    let before := stripStatus cur
    match applyMutator f key cur with
    | .error e => ⟨OperationResultNone, some e, cur, [.get]⟩
    | .ok m =>
      let afterStatus := m.status
      let hasAfterStatus := m.status.isSome
      let after := stripStatus m
      if before ≠ after then
        match st.patchRes m with
        | .error e => ⟨OperationResultNone, some e, m, [.get, .patchBody m]⟩
        | .ok p =>
          if (hasBeforeStatus || hasAfterStatus) && beforeStatus ≠ afterStatus then
            let objAfterPatch := { p with status := afterStatus }
            match st.statusPatchRes objAfterPatch with
            | .error e =>
              ⟨OperationResultUpdated, some e, objAfterPatch,
                [.get, .patchBody m, .patchStatus objAfterPatch]⟩
            | .ok q =>
              ⟨OperationResultUpdatedStatus, none, q,
                [.get, .patchBody m, .patchStatus objAfterPatch]⟩
          else ⟨OperationResultUpdated, none, p, [.get, .patchBody m]⟩
      else
        if (hasBeforeStatus || hasAfterStatus) && beforeStatus ≠ afterStatus then
          match st.statusPatchRes m with
          | .error e => ⟨OperationResultNone, some e, m, [.get, .patchStatus m]⟩
          | .ok q => ⟨OperationResultUpdatedStatusOnly, none, q, [.get, .patchStatus m]⟩
        else ⟨OperationResultNone, none, m, [.get]⟩

/-- One attempt of `createOrPatchWithJsonMerge` (client.go line 216): Get; on
NotFound mutate and Create; on any other Get error fail; when present, mutate,
compare, and on difference Patch with `client.Merge` (a body JSON merge patch). -/
def createOrPatchWithJsonMerge (st : Store) (obj : KObject) (f : Mutator) : OpOut :=
  let key := objectKeyFromObject obj
  match st.getRes with
  | .error e =>
    if ¬ e.isNotFound then ⟨OperationResultNone, some e, obj, [.get]⟩
    else
      match mutate f key obj with
      | .error e' => ⟨OperationResultNone, some e', obj, [.get]⟩
      | .ok m =>
        match st.createRes m with
        | .error e' => ⟨OperationResultNone, some e', m, [.get, .create m]⟩
        | .ok o' => ⟨OperationResultCreated, none, o', [.get, .create m]⟩
  | .ok cur =>
    match mutate f key cur with
    | .error e => ⟨OperationResultNone, some e, cur, [.get]⟩
    | .ok m =>
      if m = cur then ⟨OperationResultNone, none, m, [.get]⟩
      else
        match st.patchRes m with
        | .error e => ⟨OperationResultNone, some e, m, [.get, .patchBody m]⟩
        | .ok o' => ⟨OperationResultUpdated, none, o', [.get, .patchBody m]⟩

/-- One attempt of the closure inside `CreateIfNotExist` (client.go line 288):
Get; on ANY Get error attempt a Create; a Create failing with AlreadyExists is
swallowed (nil); returns nil otherwise. The `OperationResult` slot is unused
(the Go function returns only an error) and is left as the empty string. -/
def createIfNotExistAttempt (st : Store) (obj : KObject) : OpOut :=
  match st.getRes with
  | .ok cur => ⟨"", none, cur, [.get]⟩
  | .error _ =>
    match st.createRes obj with
    | .ok o' => ⟨"", none, o', [.get, .create obj]⟩
    | .error e =>
      if e.isAlreadyExists then ⟨"", none, obj, [.get, .create obj]⟩
      else ⟨"", some e, obj, [.get, .create obj]⟩

/-- One attempt of the closure inside `UpdateStatus` (client.go line 299): a
bare `c.Status().Update(ctx, obj)` — no fetch, the caller-supplied snapshot is
sent as-is. -/
def updateStatusAttempt (st : Store) (obj : KObject) : OpOut :=
  match st.statusUpdateRes obj with
  | .error e => ⟨"", some e, obj, [.statusUpdate obj]⟩
  | .ok o' => ⟨"", none, o', [.statusUpdate obj]⟩

/-- `wait.Backoff` (durations in seconds over `ℚ`; the Go float computation is
exact for the configured values). `defaultBackoff` leaves `Cap` at its zero
value. -/
structure Backoff where
  duration : ℚ
  factor : ℚ
  jitter : ℚ
  steps : Nat
  cap : ℚ
deriving DecidableEq

/-- `wait.Jitter(duration, maxFactor)` with the random draw `r ∈ [0,1)` made
explicit: `duration + r*maxFactor*duration`, where a non-positive `maxFactor`
is replaced by `1.0`. -/
def wJitter (duration maxFactor r : ℚ) : ℚ :=
  let mf := if maxFactor ≤ 0 then 1 else maxFactor
  duration + r * mf * duration

/-- `wait.Backoff.Step` with the random jitter draw `r` explicit: decrement
`Steps`, multiply the stored duration by `Factor` (capping at `Cap` when
`Cap > 0`, which also zeroes `Steps`), and return the previous duration
perturbed by `Jitter` when `Jitter > 0`. -/
def Backoff.stepB (b : Backoff) (r : ℚ) : Backoff × ℚ :=
  if b.steps < 1 then
    (b, if 0 < b.jitter then wJitter b.duration b.jitter r else b.duration)
  else
    let duration := b.duration
    let nd := if b.factor ≠ 0 then b.duration * b.factor else b.duration
    let capped := b.factor ≠ 0 ∧ 0 < b.cap ∧ b.cap < nd
    let d := if 0 < b.jitter then wJitter duration b.jitter r else duration
    ({ b with steps := if capped then 0 else b.steps - 1,
              duration := if capped then b.cap else nd }, d)

theorem Backoff.stepB_steps_lt (b : Backoff) (r : ℚ) (h : 1 ≤ b.steps) :
    (b.stepB r).1.steps < b.steps := by
  simp only [Backoff.stepB]
  split_ifs <;> simp_all <;> omega

/-- The three ways `wait.ExponentialBackoff` can end: condition returned true
with nil error, condition returned an error, or `wait.ErrWaitTimeout`. -/
inductive BRes (ε : Type) where
  | ok
  | err (e : ε)
  | timeout
deriving DecidableEq

/-- `wait.ExponentialBackoff(backoff, condition)`: run `condition` while
`Steps > 0`; return as soon as it yields an error or `true`; otherwise sleep
`backoff.Step()` between attempts and end in `ErrWaitTimeout`. The condition
is indexed by the attempt number `i`; the result carries the number of
attempts executed and the list of sleep durations. -/
def expBackoff {ε : Type} (cond : Nat → Bool × Option ε) (rs : Nat → ℚ) (b : Backoff)
    (i : Nat) : BRes ε × Nat × List ℚ :=
  if b.steps = 0 then (.timeout, 0, [])
  else
    match (cond i).2 with
    | some e => (.err e, 1, [])
    | none =>
      if (cond i).1 then (.ok, 1, [])
      else if b.steps = 1 then (.timeout, 1, [])
      else
        let s := b.stepB (rs i)
        let rest := expBackoff cond rs s.1 (i + 1)
        (rest.1, rest.2.1 + 1, s.2 :: rest.2.2)
termination_by b.steps
decreasing_by
  exact Backoff.stepB_steps_lt b (rs i) (by omega)

/-- The `ConditionFunc` closure `retry.OnError` passes to
`wait.ExponentialBackoff`: nil error means done, a retriable error means try
again (it becomes `lastErr`), any other error stops the loop carrying that
error. -/
def onErrorCond {ε : Type} (retriable : ε → Bool) (fn : Nat → Option ε) (i : Nat) :
    Bool × Option ε :=
  match fn i with
  | none => (true, none)
  | some e => if retriable e then (false, none) else (true, some e)

/-- `retry.OnError(backoff, retriable, fn)`: run the condition under
`ExponentialBackoff` and replace a final `ErrWaitTimeout` by `lastErr` (which,
on timeout after `n ≥ 1` attempts, is the — retriable — error of attempt
`n - 1`; with zero attempts it is still nil). -/
def onError {ε : Type} (b : Backoff) (rs : Nat → ℚ) (retriable : ε → Bool)
    (fn : Nat → Option ε) : Option ε × Nat × List ℚ :=
  let r := expBackoff (onErrorCond retriable fn) rs b 0
  let err : Option ε :=
    match r.1 with
    | .ok => none
    | .err e => some e
    | .timeout => if r.2.1 = 0 then none else fn (r.2.1 - 1)
  (err, r.2.1, r.2.2)

/-- `retry.RetryOnConflict(backoff, fn) = retry.OnError(backoff, errors.IsConflict, fn)`. -/
def retryOnConflict (b : Backoff) (rs : Nat → ℚ) (fn : Nat → Option KErr) :
    Option KErr × Nat × List ℚ :=
  onError b rs KErr.isConflict fn

/-- `ClientOptions`: the backoff configuration stored inside `richClient`. -/
structure ClientOptions where
  backoff : Backoff
deriving DecidableEq

/-- `defaultBackoff` (client.go line 62): Steps 5, Duration 1s, Factor 1.5,
Jitter 0.5, Cap left zero. -/
def defaultBackoff : Backoff :=
  { duration := 1, factor := 3/2, jitter := 1/2, steps := 5, cap := 0 }

/-- `richClient.ApplyOptions` (client.go line 80): apply each option in order
to the stored `ClientOptions`. -/
def ApplyOptions (c : ClientOptions) (opts : List (ClientOptions → ClientOptions)) :
    ClientOptions :=
  opts.foldl (fun acc opt => opt acc) c

/-- `NewClient` (client.go line 70): start from `defaultBackoff`, then
`ApplyOptions(opts...)`. -/
def NewClient (opts : List (ClientOptions → ClientOptions)) : ClientOptions :=
  ApplyOptions { backoff := defaultBackoff } opts

/-- The in-place object fed to attempt `i`: the original argument for attempt
0, afterwards whatever state the previous attempt left it in. -/
def attemptObjs (stepA : Nat → KObject → OpOut) (obj0 : KObject) : Nat → KObject
  | 0 => obj0
  | i + 1 => (stepA i (attemptObjs stepA obj0 i)).obj

/-- Everything attempt `i` does and returns. -/
def attemptOut (stepA : Nat → KObject → OpOut) (obj0 : KObject) (i : Nat) : OpOut :=
  stepA i (attemptObjs stepA obj0 i)

/-- Observable behaviour of a wrapped operation: the named-return
`(result, err)` pair of the Go method, the final object state, the
concatenated store-call trace, the number of attempts the retry loop ran, and
the sleeps between them. -/
structure WrapOut where
  result : String
  err : Option KErr
  obj : KObject
  calls : List Call
  attempts : Nat
  delays : List ℚ

/-- A `retry.RetryOnConflict(c.Backoff, func() error { result, err = op(...); return err })`
wrapper, as used by every exported mutating method: `result` is the
named-return left by the last executed attempt (the Go zero value `""` if no
attempt ran). -/
def wrapRetry (b : Backoff) (rs : Nat → ℚ) (stepA : Nat → KObject → OpOut)
    (obj0 : KObject) : WrapOut :=
  let out := attemptOut stepA obj0
  let r := retryOnConflict b rs (fun i => (out i).err)
  { result := if r.2.1 = 0 then "" else (out (r.2.1 - 1)).result
    err := r.1
    obj := attemptObjs stepA obj0 r.2.1
    calls := (List.range r.2.1).flatMap fun i => (out i).calls
    attempts := r.2.1
    delays := r.2.2 }

/-- `richClient.GetAndUpdate` (client.go line 246): `getAndUpdate` under
`RetryOnConflict`, the store oracle being indexed by attempt. -/
def GetAndUpdate (c : ClientOptions) (sts : Nat → Store) (rs : Nat → ℚ)
    (obj : KObject) (f : Mutator) : WrapOut :=
  wrapRetry c.backoff rs (fun i o => getAndUpdate (sts i) o f) obj

/-- `richClient.GetAndPatch` (client.go line 264): `getAndPatch` under
`RetryOnConflict`. -/
def GetAndPatch (c : ClientOptions) (sts : Nat → Store) (rs : Nat → ℚ)
    (obj : KObject) (f : Option Mutator) : WrapOut :=
  wrapRetry c.backoff rs (fun i o => getAndPatch (sts i) o f) obj

/-- `richClient.CreateOrPatchWithJsonMerge` (client.go line 255). -/
def CreateOrPatchWithJsonMerge (c : ClientOptions) (sts : Nat → Store) (rs : Nat → ℚ)
    (obj : KObject) (f : Mutator) : WrapOut :=
  wrapRetry c.backoff rs (fun i o => createOrPatchWithJsonMerge (sts i) o f) obj

/-- `richClient.CreateIfNotExist` (client.go line 288). -/
def CreateIfNotExist (c : ClientOptions) (sts : Nat → Store) (rs : Nat → ℚ)
    (obj : KObject) : WrapOut :=
  wrapRetry c.backoff rs (fun i o => createIfNotExistAttempt (sts i) o) obj

/-- `richClient.UpdateStatus` (client.go line 299). -/
def UpdateStatus (c : ClientOptions) (sts : Nat → Store) (rs : Nat → ℚ)
    (obj : KObject) : WrapOut :=
  wrapRetry c.backoff rs (fun i o => updateStatusAttempt (sts i) o) obj

/-! Lemmas about the retry machinery. -/

theorem expBackoff_steps_zero {ε : Type} (cond : Nat → Bool × Option ε) (rs : Nat → ℚ)
    (b : Backoff) (i : Nat) (h : b.steps = 0) :
    expBackoff cond rs b i = (.timeout, 0, []) := by
  rw [expBackoff]
  simp [h]

theorem expBackoff_err {ε : Type} (cond : Nat → Bool × Option ε) (rs : Nat → ℚ)
    (b : Backoff) (i : Nat) (e : ε) (h : b.steps ≠ 0) (hc : (cond i).2 = some e) :
    expBackoff cond rs b i = (.err e, 1, []) := by
  rw [expBackoff]
  simp [h, hc]

theorem expBackoff_ok {ε : Type} (cond : Nat → Bool × Option ε) (rs : Nat → ℚ)
    (b : Backoff) (i : Nat) (h : b.steps ≠ 0) (hc2 : (cond i).2 = none)
    (hc1 : (cond i).1 = true) :
    expBackoff cond rs b i = (.ok, 1, []) := by
  rw [expBackoff]
  simp [h, hc2, hc1]

theorem expBackoff_last {ε : Type} (cond : Nat → Bool × Option ε) (rs : Nat → ℚ)
    (b : Backoff) (i : Nat) (h : b.steps = 1) (hc2 : (cond i).2 = none)
    (hc1 : (cond i).1 = false) :
    expBackoff cond rs b i = (.timeout, 1, []) := by
  rw [expBackoff]
  simp [h, hc2, hc1]

theorem expBackoff_cont {ε : Type} (cond : Nat → Bool × Option ε) (rs : Nat → ℚ)
    (b : Backoff) (i : Nat) (h : b.steps ≠ 0) (h1 : b.steps ≠ 1)
    (hc2 : (cond i).2 = none) (hc1 : (cond i).1 = false) :
    expBackoff cond rs b i =
      ((expBackoff cond rs (b.stepB (rs i)).1 (i + 1)).1,
        (expBackoff cond rs (b.stepB (rs i)).1 (i + 1)).2.1 + 1,
        (b.stepB (rs i)).2 :: (expBackoff cond rs (b.stepB (rs i)).1 (i + 1)).2.2) := by
  rw [expBackoff]
  simp [h, h1, hc2, hc1]

/-- With `Cap` at its zero value and at least one step left, `Step` decrements
`Steps` by exactly one, multiplies the stored duration by `Factor` (when
nonzero) and returns the previous duration, jittered when `Jitter > 0`. -/
theorem Backoff.stepB_nocap (b : Backoff) (r : ℚ) (hcap : b.cap ≤ 0) (h : 1 ≤ b.steps) :
    b.stepB r =
      ({ b with steps := b.steps - 1,
                duration := if b.factor ≠ 0 then b.duration * b.factor else b.duration },
        if 0 < b.jitter then wJitter b.duration b.jitter r else b.duration) := by
  have h2 : ¬ b.steps < 1 := by omega
  have hc : ¬ (0 < b.cap) := by linarith
  simp only [Backoff.stepB, h2, if_false]
  simp only [hc, false_and, and_false, if_false]

/-- Any attempt strictly before the last executed one returned "retry"
(condition `(false, none)`): the loop goes on only while the condition asks to. -/
theorem expBackoff_mid_retriable {ε : Type} (cond : Nat → Bool × Option ε) (rs : Nat → ℚ)
    (b : Backoff) (i : Nat) :
    ∀ k, k + 1 < (expBackoff cond rs b i).2.1 → cond (i + k) = (false, none) := by
  induction b, i using expBackoff.induct cond rs with
  | case1 b i h =>
    intro k hk
    rw [expBackoff_steps_zero cond rs b i h] at hk
    simp at hk
  | case2 b i h e hc =>
    intro k hk
    rw [expBackoff_err cond rs b i e h hc] at hk
    simp at hk
  | case3 b i h hc2 hc1 =>
    intro k hk
    rw [expBackoff_ok cond rs b i h hc2 (by simpa using hc1)] at hk
    simp at hk
  | case4 b i h hc2 hc1 h1 =>
    intro k hk
    rw [expBackoff_last cond rs b i h1 hc2 (by simpa using hc1)] at hk
    simp at hk
  | case5 b i h hc2 hc1 h1 s ih =>
    intro k hk
    rw [expBackoff_cont cond rs b i h h1 hc2 (by simpa using hc1)] at hk
    match k with
    | 0 =>
      have : cond i = ((cond i).1, (cond i).2) := rfl
      rw [Nat.add_zero, this, hc2]
      simp at hc1
      rw [hc1]
    | k + 1 =>
      have := ih k (by simpa using Nat.lt_of_add_lt_add_right hk)
      simpa [Nat.add_assoc, Nat.add_comm, Nat.add_left_comm] using this

/-- If the first `k` attempts ask to retry and attempt `k` returns a fatal
error, the loop stops there: that error comes back after exactly `k + 1`
attempts (no capping, `k` within the step budget). -/
theorem expBackoff_stop_err {ε : Type} (cond : Nat → Bool × Option ε) (rs : Nat → ℚ) :
    ∀ (k : Nat) (b : Backoff) (i : Nat) (e : ε), b.cap ≤ 0 → k < b.steps →
      (∀ j, j < k → cond (i + j) = (false, none)) → (cond (i + k)).2 = some e →
      (expBackoff cond rs b i).1 = .err e ∧ (expBackoff cond rs b i).2.1 = k + 1 := by
  intro k
  induction k with
  | zero =>
    intro b i e _ hk _ hc
    rw [expBackoff_err cond rs b i e (by omega) (by simpa using hc)]
    exact ⟨rfl, rfl⟩
  | succ k ih =>
    intro b i e hcap hk hpre hc
    have h0 : cond i = (false, none) := by simpa using hpre 0 (by omega)
    have h2 : b.steps ≠ 0 := by omega
    have h3 : b.steps ≠ 1 := by omega
    rw [expBackoff_cont cond rs b i h2 h3 (by rw [h0]) (by rw [h0])]
    have hs := Backoff.stepB_nocap b (rs i) hcap (by omega)
    have hsteps' : (b.stepB (rs i)).1.steps = b.steps - 1 := by rw [hs]
    have hcap' : (b.stepB (rs i)).1.cap = b.cap := by rw [hs]
    have := ih (b.stepB (rs i)).1 (i + 1) e (by rw [hcap']; exact hcap)
      (by rw [hsteps']; omega)
      (fun j hj => by
        have := hpre (j + 1) (by omega)
        simpa [Nat.add_assoc, Nat.add_comm, Nat.add_left_comm] using this)
      (by
        have : i + 1 + k = i + (k + 1) := by omega
        rw [this]; exact hc)
    exact ⟨this.1, by simp [this.2]⟩

/-- If every attempt within the step budget asks to retry, the loop runs
exactly `Steps` attempts and ends in `ErrWaitTimeout` (no capping). -/
theorem expBackoff_exhaust {ε : Type} (cond : Nat → Bool × Option ε) (rs : Nat → ℚ) :
    ∀ (s : Nat) (b : Backoff) (i : Nat), b.steps = s → 1 ≤ s → b.cap ≤ 0 →
      (∀ j, j < s → cond (i + j) = (false, none)) →
      (expBackoff cond rs b i).1 = .timeout ∧ (expBackoff cond rs b i).2.1 = s := by
  intro s
  induction s with
  | zero => intro b i _ h; exact absurd h (by omega)
  | succ s ih =>
    intro b i hb _ hcap hall
    have h0 : cond i = (false, none) := by simpa using hall 0 (by omega)
    by_cases hs1 : s = 0
    · subst hs1
      rw [expBackoff_last cond rs b i (by omega) (by rw [h0]) (by rw [h0])]
      exact ⟨rfl, rfl⟩
    · have h2 : b.steps ≠ 0 := by omega
      have h3 : b.steps ≠ 1 := by omega
      rw [expBackoff_cont cond rs b i h2 h3 (by rw [h0]) (by rw [h0])]
      have hstep := Backoff.stepB_nocap b (rs i) hcap (by omega)
      have hsteps' : (b.stepB (rs i)).1.steps = s := by rw [hstep]; simp [hb]
      have hcap' : (b.stepB (rs i)).1.cap = b.cap := by rw [hstep]
      have := ih (b.stepB (rs i)).1 (i + 1) hsteps' (by omega) (by rw [hcap']; exact hcap)
        (fun j hj => by
          have := hall (j + 1) (by omega)
          simpa [Nat.add_assoc, Nat.add_comm, Nat.add_left_comm] using this)
      exact ⟨this.1, by simp [this.2]⟩

/-- Under exhaustion (previous lemma) with a positive jitter and nonzero
factor, the sleeps are exactly: the `j`-th sleep is the base duration grown by
`factor^j`, perturbed by the `j`-th jitter draw. -/
theorem expBackoff_exhaust_delays {ε : Type} (cond : Nat → Bool × Option ε) (rs : Nat → ℚ) :
    ∀ (s : Nat) (b : Backoff) (i : Nat), b.steps = s → 1 ≤ s → b.cap ≤ 0 →
      b.factor ≠ 0 → 0 < b.jitter →
      (∀ j, j < s → cond (i + j) = (false, none)) →
      (expBackoff cond rs b i).2.2 =
        (List.range (s - 1)).map
          (fun j => wJitter (b.duration * b.factor ^ j) b.jitter (rs (i + j))) := by
  intro s
  induction s with
  | zero => intro b i _ h; exact absurd h (by omega)
  | succ s ih =>
    intro b i hb _ hcap hfac hjit hall
    have h0 : cond i = (false, none) := by simpa using hall 0 (by omega)
    by_cases hs1 : s = 0
    · subst hs1
      rw [expBackoff_last cond rs b i (by omega) (by rw [h0]) (by rw [h0])]
      simp
    · have h2 : b.steps ≠ 0 := by omega
      have h3 : b.steps ≠ 1 := by omega
      rw [expBackoff_cont cond rs b i h2 h3 (by rw [h0]) (by rw [h0])]
      have hstep := Backoff.stepB_nocap b (rs i) hcap (by omega)
      have hsteps' : (b.stepB (rs i)).1.steps = s := by rw [hstep]; simp [hb]
      have hcap' : (b.stepB (rs i)).1.cap = b.cap := by rw [hstep]
      have hfac' : (b.stepB (rs i)).1.factor = b.factor := by rw [hstep]
      have hjit' : (b.stepB (rs i)).1.jitter = b.jitter := by rw [hstep]
      have hdur' : (b.stepB (rs i)).1.duration = b.duration * b.factor := by
        rw [hstep]; simp [hfac]
      have hd : (b.stepB (rs i)).2 = wJitter b.duration b.jitter (rs i) := by
        rw [hstep]; simp [hjit]
      have hrec := ih (b.stepB (rs i)).1 (i + 1) hsteps' (by omega)
        (by rw [hcap']; exact hcap) (by rw [hfac']; exact hfac) (by rw [hjit']; exact hjit)
        (fun j hj => by
          have := hall (j + 1) (by omega)
          simpa [Nat.add_assoc, Nat.add_comm, Nat.add_left_comm] using this)
      simp only [hrec, hfac', hjit', hdur', hd]
      have hn : s + 1 - 1 = (s - 1) + 1 := by omega
      rw [hn, List.range_succ_eq_map]
      simp only [List.map_cons, List.map_map]
      congr 1
      · simp
      · apply List.map_congr_left
        intro a _
        simp only [Function.comp_apply, Nat.succ_eq_add_one]
        have e1 : b.duration * b.factor * b.factor ^ a = b.duration * b.factor ^ (a + 1) := by
          ring
        have e2 : i + 1 + a = i + (a + 1) := by omega
        rw [e1, e2]

theorem onErrorCond_inv {ε : Type} (retriable : ε → Bool) (fn : Nat → Option ε) (i : Nat)
    (h : onErrorCond retriable fn i = (false, none)) :
    ∃ e, fn i = some e ∧ retriable e = true := by
  unfold onErrorCond at h
  match hf : fn i with
  | none => rw [hf] at h; simp at h
  | some e =>
    rw [hf] at h
    by_cases hr : retriable e = true
    · exact ⟨e, rfl, hr⟩
    · rw [Bool.not_eq_true] at hr
      simp [hr] at h

theorem onError_attempts {ε : Type} (b : Backoff) (rs : Nat → ℚ) (retriable : ε → Bool)
    (fn : Nat → Option ε) :
    (onError b rs retriable fn).2.1 = (expBackoff (onErrorCond retriable fn) rs b 0).2.1 := rfl

/-- Part "re-invokes only while Conflict": any attempt that was followed by
another one returned a Conflict-classified error. -/
theorem retryOnConflict_mid (b : Backoff) (rs : Nat → ℚ) (fn : Nat → Option KErr) (i : Nat)
    (hi : i + 1 < (retryOnConflict b rs fn).2.1) :
    ∃ e, fn i = some e ∧ e.isConflict = true := by
  have h := expBackoff_mid_retriable (onErrorCond KErr.isConflict fn) rs b 0 i hi
  exact onErrorCond_inv KErr.isConflict fn i (by simpa using h)

/-- Part "first non-Conflict error stops the loop and is returned unchanged". -/
theorem retryOnConflict_stop (b : Backoff) (rs : Nat → ℚ) (fn : Nat → Option KErr)
    (k : Nat) (e : KErr) (hcap : b.cap ≤ 0) (hk : k < b.steps)
    (hpre : ∀ j, j < k → ∃ e', fn j = some e' ∧ e'.isConflict = true)
    (he : fn k = some e) (hne : e.isConflict = false) :
    (retryOnConflict b rs fn).1 = some e ∧ (retryOnConflict b rs fn).2.1 = k + 1 := by
  have hc : ∀ j, j < k → onErrorCond KErr.isConflict fn (0 + j) = (false, none) := by
    intro j hj
    obtain ⟨e', h1, h2⟩ := hpre j hj
    simp [onErrorCond, h1, h2]
  have hck : (onErrorCond KErr.isConflict fn (0 + k)).2 = some e := by
    simp [onErrorCond, he, hne]
  have h := expBackoff_stop_err (onErrorCond KErr.isConflict fn) rs k b 0 e hcap hk hc hck
  simp only [retryOnConflict, onError, h.1, h.2]
  exact ⟨trivial, trivial⟩

/-- Part "step exhaustion returns the last Conflict error itself, unchanged". -/
theorem retryOnConflict_exhaust (b : Backoff) (rs : Nat → ℚ) (fn : Nat → Option KErr)
    (hcap : b.cap ≤ 0) (h1 : 1 ≤ b.steps)
    (hall : ∀ j, j < b.steps → ∃ e', fn j = some e' ∧ e'.isConflict = true) :
    (retryOnConflict b rs fn).1 = fn (b.steps - 1) ∧
      (retryOnConflict b rs fn).2.1 = b.steps := by
  have hc : ∀ j, j < b.steps → onErrorCond KErr.isConflict fn (0 + j) = (false, none) := by
    intro j hj
    obtain ⟨e', hj1, hj2⟩ := hall j hj
    simp [onErrorCond, hj1, hj2]
  have h := expBackoff_exhaust (onErrorCond KErr.isConflict fn) rs b.steps b 0 rfl h1 hcap hc
  have hne : b.steps ≠ 0 := by omega
  simp only [retryOnConflict, onError, h.1, h.2]
  simp [hne]

/-- The sleeps under exhaustion, through `retry.RetryOnConflict`. -/
theorem retryOnConflict_exhaust_delays (b : Backoff) (rs : Nat → ℚ) (fn : Nat → Option KErr)
    (hcap : b.cap ≤ 0) (h1 : 1 ≤ b.steps) (hfac : b.factor ≠ 0) (hjit : 0 < b.jitter)
    (hall : ∀ j, j < b.steps → ∃ e', fn j = some e' ∧ e'.isConflict = true) :
    (retryOnConflict b rs fn).2.2 =
      (List.range (b.steps - 1)).map
        (fun j => wJitter (b.duration * b.factor ^ j) b.jitter (rs j)) := by
  have hc : ∀ j, j < b.steps → onErrorCond KErr.isConflict fn (0 + j) = (false, none) := by
    intro j hj
    obtain ⟨e', hj1, hj2⟩ := hall j hj
    simp [onErrorCond, hj1, hj2]
  have h := expBackoff_exhaust_delays (onErrorCond KErr.isConflict fn) rs b.steps b 0
    rfl h1 hcap hfac hjit hc
  simp only [retryOnConflict, onError, h]
  simp

/-- With a nonnegative base duration, a positive jitter fraction, jitter draws
in `[0, 1)` and a growth factor of at least `1 + jitter`, the jittered sleep
sequence is non-decreasing. -/
theorem wJitter_delays_chain (d f j : ℚ) (rs : Nat → ℚ) (n : Nat)
    (hd : 0 ≤ d) (hj : 0 < j) (hf : 1 + j ≤ f) (hrs : ∀ m, 0 ≤ rs m ∧ rs m < 1) :
    List.Chain' (· ≤ ·) ((List.range n).map fun k => wJitter (d * f ^ k) j (rs k)) := by
  cases n with
  | zero => simp
  | succ n =>
    rw [List.chain'_map, List.chain'_range_succ]
    intro m hm
    obtain ⟨h0m, h1m⟩ := hrs m
    obtain ⟨h0m', _⟩ := hrs (m + 1)
    have hjle : ¬ (j ≤ 0) := by linarith
    simp only [wJitter, hjle, if_false]
    have hf0 : 0 < f := by linarith
    have hA : 0 ≤ d * f ^ m := by positivity
    have hrj : rs m * j ≤ j := by nlinarith
    have h2' : 1 + rs m * j ≤ f := by linarith
    have hBpos : 0 ≤ rs (m + 1) * j * (d * f ^ (m + 1)) :=
      mul_nonneg (mul_nonneg h0m' (le_of_lt hj)) (by positivity)
    simp only [Nat.succ_eq_add_one]
    calc d * f ^ m + rs m * j * (d * f ^ m)
        = (d * f ^ m) * (1 + rs m * j) := by ring
      _ ≤ (d * f ^ m) * f := mul_le_mul_of_nonneg_left h2' hA
      _ = d * f ^ (m + 1) := by ring
      _ ≤ d * f ^ (m + 1) + rs (m + 1) * j * (d * f ^ (m + 1)) := by linarith

/-! Lemmas about the wrapped operations. -/

theorem attemptOut_zero (stepA : Nat → KObject → OpOut) (obj0 : KObject) :
    attemptOut stepA obj0 0 = stepA 0 obj0 := rfl

/-- When the first attempt returns no error, the wrapper stops after that one
attempt and hands back exactly its results and its trace. -/
theorem wrapRetry_first_none (b : Backoff) (rs : Nat → ℚ) (stepA : Nat → KObject → OpOut)
    (obj0 : KObject) (h1 : 1 ≤ b.steps) (h : (stepA 0 obj0).err = none) :
    wrapRetry b rs stepA obj0 =
      ⟨(stepA 0 obj0).result, none, (stepA 0 obj0).obj, (stepA 0 obj0).calls, 1, []⟩ := by
  have hfn : (attemptOut stepA obj0 0).err = none := by
    rw [attemptOut_zero]; exact h
  have hexp := expBackoff_ok (onErrorCond KErr.isConflict fun i => (attemptOut stepA obj0 i).err)
    rs b 0 (by omega) (by simp [onErrorCond, hfn]) (by simp [onErrorCond, hfn])
  simp only [wrapRetry, retryOnConflict, onError, hexp]
  simp [attemptOut, attemptObjs, List.range_succ]

/-- When the first attempt returns a non-Conflict error, the wrapper stops
after that one attempt, propagating the error unchanged. -/
theorem wrapRetry_first_fatal (b : Backoff) (rs : Nat → ℚ) (stepA : Nat → KObject → OpOut)
    (obj0 : KObject) (e : KErr) (h1 : 1 ≤ b.steps) (h : (stepA 0 obj0).err = some e)
    (hne : e.isConflict = false) :
    wrapRetry b rs stepA obj0 =
      ⟨(stepA 0 obj0).result, some e, (stepA 0 obj0).obj, (stepA 0 obj0).calls, 1, []⟩ := by
  have hfn : (attemptOut stepA obj0 0).err = some e := by
    rw [attemptOut_zero]; exact h
  have hexp := expBackoff_err (onErrorCond KErr.isConflict fun i => (attemptOut stepA obj0 i).err)
    rs b 0 e (by omega) (by simp [onErrorCond, hfn, hne])
  simp only [wrapRetry, retryOnConflict, onError, hexp]
  simp [attemptOut, attemptObjs, List.range_succ]

/-! Evaluation lemmas for single attempts of the operations. -/

theorem getAndUpdate_noChange (st : Store) (obj cur : KObject) (f : Mutator)
    (hget : st.getRes = .ok cur) (hkey : objectKeyFromObject cur = objectKeyFromObject obj)
    (hf : f cur = .ok cur) :
    getAndUpdate st obj f = ⟨OperationResultNone, none, cur, [.get]⟩ := by
  simp [getAndUpdate, mutate, hget, hf, hkey]

theorem getAndPatch_noChange (st : Store) (obj cur : KObject) (f : Mutator)
    (hget : st.getRes = .ok cur) (hkey : objectKeyFromObject cur = objectKeyFromObject obj)
    (hf : f cur = .ok cur) :
    getAndPatch st obj (some f) = ⟨OperationResultNone, none, cur, [.get]⟩ := by
  simp [getAndPatch, applyMutator, mutate, hget, hf, hkey]

theorem createOrPatchWithJsonMerge_noChange (st : Store) (obj cur : KObject) (f : Mutator)
    (hget : st.getRes = .ok cur) (hkey : objectKeyFromObject cur = objectKeyFromObject obj)
    (hf : f cur = .ok cur) :
    createOrPatchWithJsonMerge st obj f = ⟨OperationResultNone, none, cur, [.get]⟩ := by
  simp [createOrPatchWithJsonMerge, mutate, hget, hf, hkey]

theorem getAndUpdate_identity (st : Store) (obj cur m : KObject) (f : Mutator)
    (hget : st.getRes = .ok cur) (hf : f cur = .ok m)
    (hkey : objectKeyFromObject m ≠ objectKeyFromObject obj) :
    getAndUpdate st obj f = ⟨OperationResultNone, some .identityViolation, cur, [.get]⟩ := by
  simp [getAndUpdate, mutate, hget, hf, hkey]

theorem getAndPatch_identity (st : Store) (obj cur m : KObject) (f : Mutator)
    (hget : st.getRes = .ok cur) (hf : f cur = .ok m)
    (hkey : objectKeyFromObject m ≠ objectKeyFromObject obj) :
    getAndPatch st obj (some f) = ⟨OperationResultNone, some .identityViolation, cur, [.get]⟩ := by
  simp [getAndPatch, applyMutator, mutate, hget, hf, hkey]

theorem getAndPatch_nil (st : Store) (obj cur : KObject) (hget : st.getRes = .ok cur) :
    getAndPatch st obj none = ⟨OperationResultNone, none, cur, [.get]⟩ := by
  simp [getAndPatch, applyMutator, hget]

/-! The claims. -/

/-- C1: for every mutation function producing no semantic change to the
fetched snapshot, each of `GetAndUpdate`, `GetAndPatch` and
`CreateOrPatchWithJsonMerge` performs zero write calls against the store and
returns the NoChange outcome (`OperationResultNone`) with no error. -/
theorem noChange_zero_writes (c : ClientOptions) (sts : Nat → Store) (rs : Nat → ℚ)
    (obj cur : KObject) (f : Mutator)
    (hsteps : 1 ≤ c.backoff.steps)
    (hget : (sts 0).getRes = .ok cur)
    (hkey : objectKeyFromObject cur = objectKeyFromObject obj)
    (hf : f cur = .ok cur) :
    ((GetAndUpdate c sts rs obj f).err = none ∧
      (GetAndUpdate c sts rs obj f).result = OperationResultNone ∧
      (GetAndUpdate c sts rs obj f).calls.filter Call.isWrite = []) ∧
    ((GetAndPatch c sts rs obj (some f)).err = none ∧
      (GetAndPatch c sts rs obj (some f)).result = OperationResultNone ∧
      (GetAndPatch c sts rs obj (some f)).calls.filter Call.isWrite = []) ∧
    ((CreateOrPatchWithJsonMerge c sts rs obj f).err = none ∧
      (CreateOrPatchWithJsonMerge c sts rs obj f).result = OperationResultNone ∧
      (CreateOrPatchWithJsonMerge c sts rs obj f).calls.filter Call.isWrite = []) := by
  have h1 := getAndUpdate_noChange (sts 0) obj cur f hget hkey hf
  have h2 := getAndPatch_noChange (sts 0) obj cur f hget hkey hf
  have h3 := createOrPatchWithJsonMerge_noChange (sts 0) obj cur f hget hkey hf
  have w1 := wrapRetry_first_none c.backoff rs (fun i o => getAndUpdate (sts i) o f) obj
    hsteps (by rw [show (fun i o => getAndUpdate (sts i) o f) 0 obj
      = getAndUpdate (sts 0) obj f from rfl, h1])
  have w2 := wrapRetry_first_none c.backoff rs (fun i o => getAndPatch (sts i) o (some f)) obj
    hsteps (by rw [show (fun i o => getAndPatch (sts i) o (some f)) 0 obj
      = getAndPatch (sts 0) obj (some f) from rfl, h2])
  have w3 := wrapRetry_first_none c.backoff rs
    (fun i o => createOrPatchWithJsonMerge (sts i) o f) obj
    hsteps (by rw [show (fun i o => createOrPatchWithJsonMerge (sts i) o f) 0 obj
      = createOrPatchWithJsonMerge (sts 0) obj f from rfl, h3])
  refine ⟨?_, ?_, ?_⟩
  · rw [show GetAndUpdate c sts rs obj f
      = wrapRetry c.backoff rs (fun i o => getAndUpdate (sts i) o f) obj from rfl, w1]
    simp [h1, Call.isWrite]
  · rw [show GetAndPatch c sts rs obj (some f)
      = wrapRetry c.backoff rs (fun i o => getAndPatch (sts i) o (some f)) obj from rfl, w2]
    simp [h2, Call.isWrite]
  · rw [show CreateOrPatchWithJsonMerge c sts rs obj f
      = wrapRetry c.backoff rs (fun i o => createOrPatchWithJsonMerge (sts i) o f) obj from
      rfl, w3]
    simp [h3, Call.isWrite]

/-- C4: a mutation function that changes the object's name or namespace makes
`GetAndUpdate` and `GetAndPatch` fail with the identity-violation error, with
no write call issued against the store. -/
theorem identity_violation_no_write (c : ClientOptions) (sts : Nat → Store) (rs : Nat → ℚ)
    (obj cur m : KObject) (f : Mutator)
    (hsteps : 1 ≤ c.backoff.steps)
    (hget : (sts 0).getRes = .ok cur)
    (hf : f cur = .ok m)
    (hkey : objectKeyFromObject m ≠ objectKeyFromObject obj) :
    ((GetAndUpdate c sts rs obj f).err = some .identityViolation ∧
      (GetAndUpdate c sts rs obj f).calls.filter Call.isWrite = []) ∧
    ((GetAndPatch c sts rs obj (some f)).err = some .identityViolation ∧
      (GetAndPatch c sts rs obj (some f)).calls.filter Call.isWrite = []) := by
  have h1 := getAndUpdate_identity (sts 0) obj cur m f hget hf hkey
  have h2 := getAndPatch_identity (sts 0) obj cur m f hget hf hkey
  have w1 := wrapRetry_first_fatal c.backoff rs (fun i o => getAndUpdate (sts i) o f) obj
    .identityViolation hsteps (by rw [show (fun i o => getAndUpdate (sts i) o f) 0 obj
      = getAndUpdate (sts 0) obj f from rfl, h1]) rfl
  have w2 := wrapRetry_first_fatal c.backoff rs (fun i o => getAndPatch (sts i) o (some f)) obj
    .identityViolation hsteps (by rw [show (fun i o => getAndPatch (sts i) o (some f)) 0 obj
      = getAndPatch (sts 0) obj (some f) from rfl, h2]) rfl
  constructor
  · rw [show GetAndUpdate c sts rs obj f
      = wrapRetry c.backoff rs (fun i o => getAndUpdate (sts i) o f) obj from rfl, w1]
    simp [h1, Call.isWrite]
  · rw [show GetAndPatch c sts rs obj (some f)
      = wrapRetry c.backoff rs (fun i o => getAndPatch (sts i) o (some f)) obj from rfl, w2]
    simp [h2, Call.isWrite]

/-- C10: `GetAndPatch` invoked with a nil mutation function on an existing
resource skips the mutation and the identity check entirely (no hypothesis on
the fetched object's key is needed), issues no write — its trace is the single
`Get` — and returns the NoChange outcome with no error. -/
theorem getAndPatch_nil_mutator_noop (c : ClientOptions) (sts : Nat → Store) (rs : Nat → ℚ)
    (obj cur : KObject)
    (hsteps : 1 ≤ c.backoff.steps)
    (hget : (sts 0).getRes = .ok cur) :
    (GetAndPatch c sts rs obj none).result = OperationResultNone ∧
    (GetAndPatch c sts rs obj none).err = none ∧
    (GetAndPatch c sts rs obj none).calls = [.get] := by
  have h1 := getAndPatch_nil (sts 0) obj cur hget
  have w1 := wrapRetry_first_none c.backoff rs (fun i o => getAndPatch (sts i) o none) obj
    hsteps (by rw [show (fun i o => getAndPatch (sts i) o none) 0 obj
      = getAndPatch (sts 0) obj none from rfl, h1])
  rw [show GetAndPatch c sts rs obj none
    = wrapRetry c.backoff rs (fun i o => getAndPatch (sts i) o none) obj from rfl, w1]
  simp [h1]

theorem status_present_of_ne {a b : Option JsonV} (h : a ≠ b) :
    (a.isSome || b.isSome) = true := by
  cases a <;> cases b <;> simp_all

/-- C2: a single attempt of `GetAndPatch` issues a body patch iff the document
minus its status subtree differs across the mutation, and a status patch iff
the status subtree differs (present on either side); the outcome encodes
exactly which of the two was written (store writes assumed to succeed). -/
theorem getAndPatch_patch_discipline (st : Store) (obj cur m : KObject) (f : Mutator)
    (hget : st.getRes = .ok cur)
    (hf : f cur = .ok m)
    (hkey : objectKeyFromObject m = objectKeyFromObject obj)
    (hp : ∀ o, ∃ o', st.patchRes o = .ok o')
    (hsp : ∀ o, ∃ o', st.statusPatchRes o = .ok o') :
    ((getAndPatch st obj (some f)).calls.filter Call.isBodyPatch).length
        = (if stripStatus cur ≠ stripStatus m then 1 else 0) ∧
    ((getAndPatch st obj (some f)).calls.filter Call.isStatusPatch).length
        = (if cur.status ≠ m.status then 1 else 0) ∧
    (getAndPatch st obj (some f)).err = none ∧
    (getAndPatch st obj (some f)).result =
        (if stripStatus cur ≠ stripStatus m then
          (if cur.status ≠ m.status then OperationResultUpdatedStatus
            else OperationResultUpdated)
        else
          (if cur.status ≠ m.status then OperationResultUpdatedStatusOnly
            else OperationResultNone)) := by
  obtain ⟨p, hpm⟩ := hp m
  obtain ⟨q1, hq1⟩ := hsp { p with status := m.status }
  obtain ⟨q2, hq2⟩ := hsp m
  by_cases hb : stripStatus cur = stripStatus m <;> by_cases hs : cur.status = m.status
  · have h : getAndPatch st obj (some f) = ⟨OperationResultNone, none, m, [.get]⟩ := by
      simp [getAndPatch, applyMutator, mutate, hget, hf, hkey, hb, hs]
    rw [h]
    simp [hb, hs, Call.isBodyPatch, Call.isStatusPatch]
  · have hpres := status_present_of_ne hs
    have h : getAndPatch st obj (some f)
        = ⟨OperationResultUpdatedStatusOnly, none, q2, [.get, .patchStatus m]⟩ := by
      simp [getAndPatch, applyMutator, mutate, hget, hf, hkey, hb, hs, hpres, hq2]
    rw [h]
    simp [hb, hs, Call.isBodyPatch, Call.isStatusPatch]
  · have h : getAndPatch st obj (some f)
        = ⟨OperationResultUpdated, none, p, [.get, .patchBody m]⟩ := by
      simp [getAndPatch, applyMutator, mutate, hget, hf, hkey, hb, hs, hpm]
    rw [h]
    simp [hb, hs, Call.isBodyPatch, Call.isStatusPatch]
  · have hpres := status_present_of_ne hs
    have h : getAndPatch st obj (some f)
        = ⟨OperationResultUpdatedStatus, none, q1,
            [.get, .patchBody m, .patchStatus { p with status := m.status }]⟩ := by
      simp [getAndPatch, applyMutator, mutate, hget, hf, hkey, hb, hs, hpres, hpm, hq1]
    rw [h]
    simp [hb, hs, Call.isBodyPatch, Call.isStatusPatch]

/-- C3: in a `GetAndPatch` attempt where the status subtree changed, (i) when
the body also changed and the body patch succeeds, the body patch strictly
precedes the status patch and the status patch targets the body-patch response
with its status set to the post-mutation status; (ii) after a failed body
patch no status write is issued and the body-patch error is returned; (iii)
the status patch is issued regardless of whether the body changed (computed
from the original before/after pair). -/
theorem getAndPatch_body_before_status (st : Store) (obj cur m : KObject) (f : Mutator)
    (hget : st.getRes = .ok cur)
    (hf : f cur = .ok m)
    (hkey : objectKeyFromObject m = objectKeyFromObject obj)
    (hstat : cur.status ≠ m.status) :
    (∀ p, st.patchRes m = .ok p → stripStatus cur ≠ stripStatus m →
        (getAndPatch st obj (some f)).calls
          = [.get, .patchBody m, .patchStatus { p with status := m.status }]) ∧
    (∀ e, st.patchRes m = .error e → stripStatus cur ≠ stripStatus m →
        (getAndPatch st obj (some f)).calls = [.get, .patchBody m] ∧
        (getAndPatch st obj (some f)).err = some e) ∧
    (stripStatus cur = stripStatus m →
        (getAndPatch st obj (some f)).calls.filter Call.isBodyPatch = [] ∧
        (getAndPatch st obj (some f)).calls.filter Call.isStatusPatch = [.patchStatus m]) := by
  have hpres := status_present_of_ne hstat
  refine ⟨?_, ?_, ?_⟩
  · intro p hpm hb
    cases hq : st.statusPatchRes { p with status := m.status } with
    | error e =>
      simp [getAndPatch, applyMutator, mutate, hget, hf, hkey, hb, hstat, hpres, hpm, hq]
    | ok q =>
      simp [getAndPatch, applyMutator, mutate, hget, hf, hkey, hb, hstat, hpres, hpm, hq]
  · intro e hpm hb
    simp [getAndPatch, applyMutator, mutate, hget, hf, hkey, hb, hstat, hpres, hpm]
  · intro hb
    cases hq : st.statusPatchRes m with
    | error e =>
      simp [getAndPatch, applyMutator, mutate, hget, hf, hkey, hb, hstat, hpres, hq,
        Call.isBodyPatch, Call.isStatusPatch]
    | ok q =>
      simp [getAndPatch, applyMutator, mutate, hget, hf, hkey, hb, hstat, hpres, hq,
        Call.isBodyPatch, Call.isStatusPatch]

/-- C5: the retry wrapper re-invokes only while the error is
Conflict-classified; the first non-Conflict error stops the loop and is
returned to the caller unchanged; on step exhaustion the last Conflict error
itself is returned, never a synthetic exhaustion error. -/
theorem retry_only_on_conflict (b : Backoff) (rs : Nat → ℚ) (fn : Nat → Option KErr)
    (hcap : b.cap ≤ 0) :
    (∀ i, i + 1 < (retryOnConflict b rs fn).2.1 →
        ∃ e, fn i = some e ∧ e.isConflict = true) ∧
    (∀ k e, k < b.steps → (∀ j, j < k → ∃ e', fn j = some e' ∧ e'.isConflict = true) →
        fn k = some e → e.isConflict = false →
        (retryOnConflict b rs fn).1 = some e ∧ (retryOnConflict b rs fn).2.1 = k + 1) ∧
    (1 ≤ b.steps → (∀ j, j < b.steps → ∃ e', fn j = some e' ∧ e'.isConflict = true) →
        (retryOnConflict b rs fn).1 = fn (b.steps - 1) ∧
        (retryOnConflict b rs fn).2.1 = b.steps) :=
  ⟨fun i hi => retryOnConflict_mid b rs fn i hi,
    fun k e hk hpre he hne => retryOnConflict_stop b rs fn k e hcap hk hpre he hne,
    fun h1 hall => retryOnConflict_exhaust b rs fn hcap h1 hall⟩

/-- C6: when every attempt returns a Conflict error, the wrapper executes the
operation exactly `Steps` times, the sleeps between consecutive attempts are
each the previous base duration times the factor perturbed by the jitter draw,
the sleep sequence is non-decreasing, and the last Conflict error is returned. -/
theorem retry_exhaustion_backoff (b : Backoff) (rs : Nat → ℚ) (fn : Nat → Option KErr)
    (hsteps : 1 ≤ b.steps) (hcap : b.cap ≤ 0) (hdur : 0 ≤ b.duration)
    (hjit : 0 < b.jitter) (hfac : 1 + b.jitter ≤ b.factor)
    (hrs : ∀ i, 0 ≤ rs i ∧ rs i < 1)
    (hall : ∀ j, j < b.steps → ∃ e, fn j = some e ∧ e.isConflict = true) :
    (retryOnConflict b rs fn).2.1 = b.steps ∧
    (retryOnConflict b rs fn).1 = fn (b.steps - 1) ∧
    (retryOnConflict b rs fn).2.2 =
      (List.range (b.steps - 1)).map
        (fun j => wJitter (b.duration * b.factor ^ j) b.jitter (rs j)) ∧
    List.Chain' (· ≤ ·) (retryOnConflict b rs fn).2.2 := by
  have hfac0 : b.factor ≠ 0 := by
    intro h
    rw [h] at hfac
    linarith
  have h1 := retryOnConflict_exhaust b rs fn hcap hsteps hall
  have h2 := retryOnConflict_exhaust_delays b rs fn hcap hsteps hfac0 hjit hall
  refine ⟨h1.2, h1.1, h2, ?_⟩
  rw [h2]
  exact wJitter_delays_chain b.duration b.factor b.jitter rs (b.steps - 1) hdur hjit hfac hrs

/-! Every attempt of the fetch-based operations begins with a `Get`. -/

theorem getAndUpdate_head_get (st : Store) (obj : KObject) (f : Mutator) :
    (getAndUpdate st obj f).calls.head? = some .get := by
  simp only [getAndUpdate]
  repeat' split
  all_goals rfl

theorem getAndPatch_head_get (st : Store) (obj : KObject) (f : Option Mutator) :
    (getAndPatch st obj f).calls.head? = some .get := by
  simp only [getAndPatch]
  repeat' split
  all_goals rfl

theorem createOrPatchWithJsonMerge_head_get (st : Store) (obj : KObject) (f : Mutator) :
    (createOrPatchWithJsonMerge st obj f).calls.head? = some .get := by
  simp only [createOrPatchWithJsonMerge]
  repeat' split
  all_goals rfl

theorem createIfNotExistAttempt_head_get (st : Store) (obj : KObject) :
    (createIfNotExistAttempt st obj).calls.head? = some .get := by
  simp only [createIfNotExistAttempt]
  repeat' split
  all_goals rfl

/-- As long as the retry loop of `UpdateStatus` keeps running, the in-place
object never changes: a failed `Status().Update` leaves `obj` as it was, so
every retried attempt writes the very same caller-supplied snapshot. -/
theorem updateStatus_attempt_obj (c : ClientOptions) (sts : Nat → Store) (rs : Nat → ℚ)
    (obj : KObject) :
    ∀ i, i < (UpdateStatus c sts rs obj).attempts →
      attemptObjs (fun j o => updateStatusAttempt (sts j) o) obj i = obj := by
  intro i
  induction i with
  | zero => intro _; rfl
  | succ k ih =>
    intro hk
    have hobjk := ih (by omega)
    obtain ⟨e, he, hc⟩ := retryOnConflict_mid c.backoff rs
      (fun j => (attemptOut (fun j' o => updateStatusAttempt (sts j') o) obj j).err) k hk
    have hout : attemptOut (fun j' o => updateStatusAttempt (sts j') o) obj k
        = updateStatusAttempt (sts k) obj := by
      rw [attemptOut, hobjk]
    rw [hout] at he
    rw [show attemptObjs (fun j' o => updateStatusAttempt (sts j') o) obj (k + 1)
      = (attemptOut (fun j' o => updateStatusAttempt (sts j') o) obj k).obj from rfl, hout]
    cases hsr : (sts k).statusUpdateRes obj with
    | error e' => simp [updateStatusAttempt, hsr]
    | ok o' => simp [updateStatusAttempt, hsr] at he

/-- C7 counterexample: `UpdateStatus` under a store that reports Conflict on
the first status write and accepts the second. The wrapped operation issues
the SAME snapshot again after the Conflict, with no fetch anywhere in the
trace — refuting "no operation ever re-issues a write built from a snapshot
already known to be stale". -/
def cexStore7 : Nat → Store := fun i =>
  { getRes := .error (.notFound "nf"),
    createRes := Except.ok, updateRes := Except.ok, patchRes := Except.ok,
    statusPatchRes := Except.ok,
    statusUpdateRes := fun o => if i = 0 then .error (.conflict "stale rv") else .ok o }

def cexObj : KObject := ⟨"default", "cfg", .nil, some (.str "Pending")⟩

/-- A run of the wrapper in which the first attempt hits a Conflict and the
second succeeds: two attempts, one sleep, and the concatenated trace. -/
theorem wrapRetry_conflict_then_ok (b : Backoff) (rs : Nat → ℚ) (stepA : Nat → KObject → OpOut)
    (obj0 : KObject) (e : KErr) (h2 : 2 ≤ b.steps) (hcap : b.cap ≤ 0)
    (h0 : (stepA 0 obj0).err = some e) (hc : e.isConflict = true)
    (h1 : (stepA 1 ((stepA 0 obj0).obj)).err = none) :
    wrapRetry b rs stepA obj0 =
      ⟨(stepA 1 ((stepA 0 obj0).obj)).result, none, (stepA 1 ((stepA 0 obj0).obj)).obj,
        (stepA 0 obj0).calls ++ (stepA 1 ((stepA 0 obj0).obj)).calls, 2,
        [(b.stepB (rs 0)).2]⟩ := by
  have hobj1 : attemptObjs stepA obj0 1 = (stepA 0 obj0).obj := rfl
  have hout0 : attemptOut stepA obj0 0 = stepA 0 obj0 := rfl
  have hout1 : attemptOut stepA obj0 1 = stepA 1 ((stepA 0 obj0).obj) := by
    rw [attemptOut, hobj1]
  have hc0 : onErrorCond KErr.isConflict (fun i => (attemptOut stepA obj0 i).err) 0
      = (false, none) := by
    simp [onErrorCond, hout0, h0, hc]
  have hc1 : onErrorCond KErr.isConflict (fun i => (attemptOut stepA obj0 i).err) 1
      = (true, none) := by
    simp [onErrorCond, hout1, h1]
  have hstep := Backoff.stepB_nocap b (rs 0) hcap (by omega)
  have hsteps1 : (b.stepB (rs 0)).1.steps = b.steps - 1 := by rw [hstep]
  have hexp1 := expBackoff_ok (onErrorCond KErr.isConflict
      (fun i => (attemptOut stepA obj0 i).err)) rs (b.stepB (rs 0)).1 1
    (by omega) (by rw [hc1]) (by rw [hc1])
  have hexp0 := expBackoff_cont (onErrorCond KErr.isConflict
      (fun i => (attemptOut stepA obj0 i).err)) rs b 0
    (by omega) (by omega) (by rw [hc0]) (by rw [hc0])
  rw [hexp1] at hexp0
  simp only [wrapRetry, retryOnConflict, onError, hexp0]
  simp [hout0, hout1, attemptObjs, List.range_succ]

theorem updateStatus_stale_retry_cex :
    (cexStore7 0).statusUpdateRes cexObj = .error (.conflict "stale rv") ∧
    (UpdateStatus (NewClient []) cexStore7 (fun _ => 0) cexObj).calls
      = [.statusUpdate cexObj, .statusUpdate cexObj] ∧
    (UpdateStatus (NewClient []) cexStore7 (fun _ => 0) cexObj).calls.filter Call.isGet
      = [] := by
  have ha0 : (fun j o => updateStatusAttempt (cexStore7 j) o) 0 cexObj
      = ⟨"", some (.conflict "stale rv"), cexObj, [.statusUpdate cexObj]⟩ := by
    simp [updateStatusAttempt, cexStore7]
  have hw := wrapRetry_conflict_then_ok (NewClient []).backoff (fun _ => 0)
    (fun j o => updateStatusAttempt (cexStore7 j) o) cexObj (.conflict "stale rv")
    (by norm_num [NewClient, ApplyOptions, defaultBackoff])
    (by norm_num [NewClient, ApplyOptions, defaultBackoff])
    (by rw [ha0]) rfl
    (by rw [ha0]; simp [updateStatusAttempt, cexStore7])
  rw [show UpdateStatus (NewClient []) cexStore7 (fun _ => 0) cexObj
    = wrapRetry (NewClient []).backoff (fun _ => 0)
        (fun j o => updateStatusAttempt (cexStore7 j) o) cexObj from rfl, hw]
  rw [ha0]
  simp [updateStatusAttempt, cexStore7, Call.isGet]

/-- C7 amended: on Conflict, the fetch-based mutating operations
(`GetAndUpdate`, `GetAndPatch`, `CreateOrPatchWithJsonMerge`,
`CreateIfNotExist`) restart from a fresh fetch — every attempt's trace begins
with a `Get` — but `UpdateStatus` has no fetch step: every attempt, including
the retries after Conflict, writes the identical caller-supplied snapshot. -/
theorem retry_refetch_amended (c : ClientOptions) (sts : Nat → Store) (rs : Nat → ℚ)
    (obj : KObject) (f : Mutator) (g : Option Mutator) :
    (∀ i, (attemptOut (fun j o => getAndUpdate (sts j) o f) obj i).calls.head?
        = some .get) ∧
    (∀ i, (attemptOut (fun j o => getAndPatch (sts j) o g) obj i).calls.head?
        = some .get) ∧
    (∀ i, (attemptOut (fun j o => createOrPatchWithJsonMerge (sts j) o f) obj i).calls.head?
        = some .get) ∧
    (∀ i, (attemptOut (fun j o => createIfNotExistAttempt (sts j) o) obj i).calls.head?
        = some .get) ∧
    (∀ i, i < (UpdateStatus c sts rs obj).attempts →
        (attemptOut (fun j o => updateStatusAttempt (sts j) o) obj i).calls
          = [.statusUpdate obj]) := by
  refine ⟨fun i => getAndUpdate_head_get _ _ _, fun i => getAndPatch_head_get _ _ _,
    fun i => createOrPatchWithJsonMerge_head_get _ _ _,
    fun i => createIfNotExistAttempt_head_get _ _, ?_⟩
  intro i hi
  rw [attemptOut, updateStatus_attempt_obj c sts rs obj i hi]
  cases hsr : (sts i).statusUpdateRes obj <;> simp [updateStatusAttempt, hsr]

/-- Store whose fetch fails with an unclassified (non-NotFound) error. -/
def cexStore8 : Store :=
  { getRes := .error (.other "boom"), createRes := Except.ok, updateRes := Except.ok,
    patchRes := Except.ok, statusPatchRes := Except.ok, statusUpdateRes := Except.ok }

/-- C8 counterexample: the fetch fails with an error that is NOT NotFound
("boom", unclassified), and `CreateIfNotExist` nevertheless issues a Create —
its guard is `err != nil`, not `IsNotFound(err)` — refuting "any fetch error
other than NotFound does not lead to a Create attempt". -/
theorem createIfNotExist_creates_on_any_get_error_cex :
    cexStore8.getRes = .error (.other "boom") ∧
    (KErr.other "boom").isNotFound = false ∧
    (CreateIfNotExist (NewClient []) (fun _ => cexStore8) (fun _ => 0) cexObj).calls
      = [.get, .create cexObj] ∧
    (CreateIfNotExist (NewClient []) (fun _ => cexStore8) (fun _ => 0) cexObj).err
      = none := by
  have h1 : createIfNotExistAttempt cexStore8 cexObj
      = ⟨"", none, cexObj, [.get, .create cexObj]⟩ := by
    simp [createIfNotExistAttempt, cexStore8]
  have hw := wrapRetry_first_none (NewClient []).backoff (fun _ => 0)
    (fun i o => createIfNotExistAttempt ((fun _ => cexStore8) i) o) cexObj
    (by norm_num [NewClient, ApplyOptions, defaultBackoff])
    (by rw [show (fun i o => createIfNotExistAttempt ((fun _ => cexStore8) i) o) 0 cexObj
      = createIfNotExistAttempt cexStore8 cexObj from rfl, h1])
  refine ⟨rfl, rfl, ?_, ?_⟩
  · rw [show CreateIfNotExist (NewClient []) (fun _ => cexStore8) (fun _ => 0) cexObj
      = wrapRetry (NewClient []).backoff (fun _ => 0)
          (fun i o => createIfNotExistAttempt ((fun _ => cexStore8) i) o) cexObj from rfl,
      hw]
    simp [h1]
  · rw [show CreateIfNotExist (NewClient []) (fun _ => cexStore8) (fun _ => 0) cexObj
      = wrapRetry (NewClient []).backoff (fun _ => 0)
          (fun i o => createIfNotExistAttempt ((fun _ => cexStore8) i) o) cexObj from rfl,
      hw]

/-- C8 amended: `CreateIfNotExist` issues a Create whenever the fetch returns
ANY error (not only NotFound); a successful fetch issues no Create; a Create
failing with AlreadyExists is swallowed and the operation returns success; any
other (non-Conflict) Create failure is propagated. -/
theorem createIfNotExist_amended (c : ClientOptions) (sts : Nat → Store) (rs : Nat → ℚ)
    (obj : KObject) (hsteps : 1 ≤ c.backoff.steps) :
    (∀ cur, (sts 0).getRes = .ok cur →
        (CreateIfNotExist c sts rs obj).err = none ∧
        (CreateIfNotExist c sts rs obj).calls = [.get]) ∧
    (∀ e o', (sts 0).getRes = .error e → (sts 0).createRes obj = .ok o' →
        (CreateIfNotExist c sts rs obj).err = none ∧
        (CreateIfNotExist c sts rs obj).calls = [.get, .create obj]) ∧
    (∀ e e', (sts 0).getRes = .error e → (sts 0).createRes obj = .error e' →
        e'.isAlreadyExists = true →
        (CreateIfNotExist c sts rs obj).err = none ∧
        (CreateIfNotExist c sts rs obj).calls = [.get, .create obj]) ∧
    (∀ e e', (sts 0).getRes = .error e → (sts 0).createRes obj = .error e' →
        e'.isAlreadyExists = false → e'.isConflict = false →
        (CreateIfNotExist c sts rs obj).err = some e' ∧
        (CreateIfNotExist c sts rs obj).calls = [.get, .create obj]) := by
  refine ⟨?_, ?_, ?_, ?_⟩
  · intro cur hget
    have h1 : createIfNotExistAttempt (sts 0) obj = ⟨"", none, cur, [.get]⟩ := by
      simp [createIfNotExistAttempt, hget]
    have hw := wrapRetry_first_none c.backoff rs
      (fun i o => createIfNotExistAttempt (sts i) o) obj hsteps
      (by rw [show (fun i o => createIfNotExistAttempt (sts i) o) 0 obj
        = createIfNotExistAttempt (sts 0) obj from rfl, h1])
    rw [show CreateIfNotExist c sts rs obj = wrapRetry c.backoff rs
      (fun i o => createIfNotExistAttempt (sts i) o) obj from rfl, hw]
    simp [h1]
  · intro e o' hget hcr
    have h1 : createIfNotExistAttempt (sts 0) obj = ⟨"", none, o', [.get, .create obj]⟩ := by
      simp [createIfNotExistAttempt, hget, hcr]
    have hw := wrapRetry_first_none c.backoff rs
      (fun i o => createIfNotExistAttempt (sts i) o) obj hsteps
      (by rw [show (fun i o => createIfNotExistAttempt (sts i) o) 0 obj
        = createIfNotExistAttempt (sts 0) obj from rfl, h1])
    rw [show CreateIfNotExist c sts rs obj = wrapRetry c.backoff rs
      (fun i o => createIfNotExistAttempt (sts i) o) obj from rfl, hw]
    simp [h1]
  · intro e e' hget hcr hae
    have h1 : createIfNotExistAttempt (sts 0) obj = ⟨"", none, obj, [.get, .create obj]⟩ := by
      simp [createIfNotExistAttempt, hget, hcr, hae]
    have hw := wrapRetry_first_none c.backoff rs
      (fun i o => createIfNotExistAttempt (sts i) o) obj hsteps
      (by rw [show (fun i o => createIfNotExistAttempt (sts i) o) 0 obj
        = createIfNotExistAttempt (sts 0) obj from rfl, h1])
    rw [show CreateIfNotExist c sts rs obj = wrapRetry c.backoff rs
      (fun i o => createIfNotExistAttempt (sts i) o) obj from rfl, hw]
    simp [h1]
  · intro e e' hget hcr hae hcf
    have h1 : createIfNotExistAttempt (sts 0) obj
        = ⟨"", some e', obj, [.get, .create obj]⟩ := by
      simp [createIfNotExistAttempt, hget, hcr, hae]
    have hw := wrapRetry_first_fatal c.backoff rs
      (fun i o => createIfNotExistAttempt (sts i) o) obj e' hsteps
      (by rw [show (fun i o => createIfNotExistAttempt (sts i) o) 0 obj
        = createIfNotExistAttempt (sts 0) obj from rfl, h1]) hcf
    rw [show CreateIfNotExist c sts rs obj = wrapRetry c.backoff rs
      (fun i o => createIfNotExistAttempt (sts i) o) obj from rfl, hw]
    simp [h1]

/-- A client option a caller could pass: set the retry step count to 7. -/
def stepsSevenOption : ClientOptions → ClientOptions :=
  fun o => { o with backoff := { o.backoff with steps := 7 } }

/-- C9 counterexample: `ApplyOptions` is an exported method of the constructed
client (it is part of the `Client` interface), and calling it AFTER
`NewClient` has returned changes the stored backoff configuration — refuting
"immutable thereafter: no operation or exported method of the constructed
client changes the stored backoff configuration after NewClient returns". -/
theorem applyOptions_post_construction_cex :
    (NewClient []).backoff.steps = 5 ∧
    (ApplyOptions (NewClient []) [stepsSevenOption]).backoff.steps = 7 :=
  ⟨rfl, rfl⟩

/-- C9 amended: the retry configuration starts from `defaultBackoff`, is
caller-overridable at construction (`NewClient` simply applies the options to
the default), but it is NOT immutable thereafter: the exported `ApplyOptions`
method mutates the stored configuration of an already-constructed client. -/
theorem backoff_configuration_amended :
    (NewClient []).backoff = defaultBackoff ∧
    (∀ opts, NewClient opts = ApplyOptions { backoff := defaultBackoff } opts) ∧
    (NewClient [stepsSevenOption]).backoff.steps = 7 ∧
    (ApplyOptions (NewClient []) [stepsSevenOption]).backoff.steps = 7 :=
  ⟨rfl, fun _ => rfl, rfl, rfl⟩

/-! Concrete fixtures used by the witnesses. -/

def wObj : KObject := ⟨"default", "cfg", .nil, none⟩

def wStore : Store :=
  { getRes := .ok wObj, createRes := Except.ok, updateRes := Except.ok,
    patchRes := Except.ok, statusPatchRes := Except.ok, statusUpdateRes := Except.ok }

def wCur : KObject := ⟨"default", "cfg", .nil, some (.str "Pending")⟩

def wStatusM : KObject := ⟨"default", "cfg", .nil, some (.str "Running")⟩

def wBothM : KObject :=
  ⟨"default", "cfg", .cons "replicas" (.num 3) .nil, some (.str "Running")⟩

def wStoreCur : Store :=
  { getRes := .ok wCur, createRes := Except.ok, updateRes := Except.ok,
    patchRes := Except.ok, statusPatchRes := Except.ok, statusUpdateRes := Except.ok }

def wRename : KObject := ⟨"default", "renamed", .nil, none⟩

def wId : Mutator := fun o => .ok o

def wMutStatus : Mutator := fun _ => .ok wStatusM

def wMutBoth : Mutator := fun _ => .ok wBothM

def wMutRen : Mutator := fun _ => .ok wRename

def wFn5 : Nat → Option KErr :=
  fun i => if i = 0 then some (.conflict "c0") else some (.other "fatal")

def wFn6 : Nat → Option KErr := fun _ => some (.conflict "c")

theorem noChange_zero_writes_witness :
    (1 ≤ (NewClient []).backoff.steps ∧
      wStore.getRes = .ok wObj ∧
      objectKeyFromObject wObj = objectKeyFromObject wObj ∧
      wId wObj = .ok wObj) ∧
    (((GetAndUpdate (NewClient []) (fun _ => wStore) (fun _ => 0) wObj wId).err = none ∧
      (GetAndUpdate (NewClient []) (fun _ => wStore) (fun _ => 0) wObj wId).result
        = OperationResultNone ∧
      (GetAndUpdate (NewClient []) (fun _ => wStore) (fun _ => 0) wObj
          wId).calls.filter Call.isWrite = []) ∧
    ((GetAndPatch (NewClient []) (fun _ => wStore) (fun _ => 0) wObj (some wId)).err
        = none ∧
      (GetAndPatch (NewClient []) (fun _ => wStore) (fun _ => 0) wObj (some wId)).result
        = OperationResultNone ∧
      (GetAndPatch (NewClient []) (fun _ => wStore) (fun _ => 0) wObj
          (some wId)).calls.filter Call.isWrite = []) ∧
    ((CreateOrPatchWithJsonMerge (NewClient []) (fun _ => wStore) (fun _ => 0) wObj
          wId).err = none ∧
      (CreateOrPatchWithJsonMerge (NewClient []) (fun _ => wStore) (fun _ => 0) wObj
          wId).result = OperationResultNone ∧
      (CreateOrPatchWithJsonMerge (NewClient []) (fun _ => wStore) (fun _ => 0) wObj
          wId).calls.filter Call.isWrite = [])) :=
  ⟨⟨by norm_num [NewClient, ApplyOptions, defaultBackoff], rfl, rfl, rfl⟩,
    noChange_zero_writes (NewClient []) (fun _ => wStore) (fun _ => 0) wObj wObj wId
      (by norm_num [NewClient, ApplyOptions, defaultBackoff]) rfl rfl rfl⟩

theorem getAndPatch_patch_discipline_witness :
    (wStoreCur.getRes = .ok wCur ∧
      wMutStatus wCur = .ok wStatusM ∧
      objectKeyFromObject wStatusM = objectKeyFromObject wCur ∧
      (∀ o, ∃ o', wStoreCur.patchRes o = .ok o') ∧
      (∀ o, ∃ o', wStoreCur.statusPatchRes o = .ok o')) ∧
    (((getAndPatch wStoreCur wCur (some wMutStatus)).calls.filter Call.isBodyPatch).length
        = (if stripStatus wCur ≠ stripStatus wStatusM then 1 else 0) ∧
    ((getAndPatch wStoreCur wCur (some wMutStatus)).calls.filter Call.isStatusPatch).length
        = (if wCur.status ≠ wStatusM.status then 1 else 0) ∧
    (getAndPatch wStoreCur wCur (some wMutStatus)).err = none ∧
    (getAndPatch wStoreCur wCur (some wMutStatus)).result =
        (if stripStatus wCur ≠ stripStatus wStatusM then
          (if wCur.status ≠ wStatusM.status then OperationResultUpdatedStatus
            else OperationResultUpdated)
        else
          (if wCur.status ≠ wStatusM.status then OperationResultUpdatedStatusOnly
            else OperationResultNone))) :=
  ⟨⟨rfl, rfl, rfl, fun o => ⟨o, rfl⟩, fun o => ⟨o, rfl⟩⟩,
    getAndPatch_patch_discipline wStoreCur wCur wCur wStatusM wMutStatus rfl rfl rfl
      (fun o => ⟨o, rfl⟩) (fun o => ⟨o, rfl⟩)⟩

theorem getAndPatch_body_before_status_witness :
    (wStoreCur.getRes = .ok wCur ∧
      wMutBoth wCur = .ok wBothM ∧
      objectKeyFromObject wBothM = objectKeyFromObject wCur ∧
      wCur.status ≠ wBothM.status) ∧
    ((∀ p, wStoreCur.patchRes wBothM = .ok p → stripStatus wCur ≠ stripStatus wBothM →
        (getAndPatch wStoreCur wCur (some wMutBoth)).calls
          = [.get, .patchBody wBothM, .patchStatus { p with status := wBothM.status }]) ∧
    (∀ e, wStoreCur.patchRes wBothM = .error e → stripStatus wCur ≠ stripStatus wBothM →
        (getAndPatch wStoreCur wCur (some wMutBoth)).calls = [.get, .patchBody wBothM] ∧
        (getAndPatch wStoreCur wCur (some wMutBoth)).err = some e) ∧
    (stripStatus wCur = stripStatus wBothM →
        (getAndPatch wStoreCur wCur (some wMutBoth)).calls.filter Call.isBodyPatch = [] ∧
        (getAndPatch wStoreCur wCur (some wMutBoth)).calls.filter Call.isStatusPatch
          = [.patchStatus wBothM])) :=
  ⟨⟨rfl, rfl, rfl, by decide⟩,
    getAndPatch_body_before_status wStoreCur wCur wCur wBothM wMutBoth rfl rfl rfl
      (by decide)⟩

theorem identity_violation_no_write_witness :
    (1 ≤ (NewClient []).backoff.steps ∧
      wStore.getRes = .ok wObj ∧
      wMutRen wObj = .ok wRename ∧
      objectKeyFromObject wRename ≠ objectKeyFromObject wObj) ∧
    (((GetAndUpdate (NewClient []) (fun _ => wStore) (fun _ => 0) wObj wMutRen).err
        = some .identityViolation ∧
      (GetAndUpdate (NewClient []) (fun _ => wStore) (fun _ => 0) wObj
          wMutRen).calls.filter Call.isWrite = []) ∧
    ((GetAndPatch (NewClient []) (fun _ => wStore) (fun _ => 0) wObj (some wMutRen)).err
        = some .identityViolation ∧
      (GetAndPatch (NewClient []) (fun _ => wStore) (fun _ => 0) wObj
          (some wMutRen)).calls.filter Call.isWrite = [])) :=
  ⟨⟨by norm_num [NewClient, ApplyOptions, defaultBackoff], rfl, rfl, by decide⟩,
    identity_violation_no_write (NewClient []) (fun _ => wStore) (fun _ => 0) wObj wObj
      wRename wMutRen (by norm_num [NewClient, ApplyOptions, defaultBackoff]) rfl rfl
      (by decide)⟩

theorem retry_only_on_conflict_witness :
    defaultBackoff.cap ≤ 0 ∧
    ((∀ i, i + 1 < (retryOnConflict defaultBackoff (fun _ => 0) wFn5).2.1 →
        ∃ e, wFn5 i = some e ∧ e.isConflict = true) ∧
    (∀ k e, k < defaultBackoff.steps →
        (∀ j, j < k → ∃ e', wFn5 j = some e' ∧ e'.isConflict = true) →
        wFn5 k = some e → e.isConflict = false →
        (retryOnConflict defaultBackoff (fun _ => 0) wFn5).1 = some e ∧
        (retryOnConflict defaultBackoff (fun _ => 0) wFn5).2.1 = k + 1) ∧
    (1 ≤ defaultBackoff.steps →
        (∀ j, j < defaultBackoff.steps → ∃ e', wFn5 j = some e' ∧ e'.isConflict = true) →
        (retryOnConflict defaultBackoff (fun _ => 0) wFn5).1
          = wFn5 (defaultBackoff.steps - 1) ∧
        (retryOnConflict defaultBackoff (fun _ => 0) wFn5).2.1 = defaultBackoff.steps)) :=
  ⟨by norm_num [defaultBackoff],
    retry_only_on_conflict defaultBackoff (fun _ => 0) wFn5 (by norm_num [defaultBackoff])⟩

theorem retry_exhaustion_backoff_witness :
    (1 ≤ defaultBackoff.steps ∧ defaultBackoff.cap ≤ 0 ∧ 0 ≤ defaultBackoff.duration ∧
      0 < defaultBackoff.jitter ∧ 1 + defaultBackoff.jitter ≤ defaultBackoff.factor ∧
      (∀ i : Nat, 0 ≤ (0 : ℚ) ∧ (0 : ℚ) < 1) ∧
      (∀ j, j < defaultBackoff.steps → ∃ e, wFn6 j = some e ∧ e.isConflict = true)) ∧
    ((retryOnConflict defaultBackoff (fun _ => 0) wFn6).2.1 = defaultBackoff.steps ∧
    (retryOnConflict defaultBackoff (fun _ => 0) wFn6).1
      = wFn6 (defaultBackoff.steps - 1) ∧
    (retryOnConflict defaultBackoff (fun _ => 0) wFn6).2.2 =
      (List.range (defaultBackoff.steps - 1)).map
        (fun j => wJitter (defaultBackoff.duration * defaultBackoff.factor ^ j)
          defaultBackoff.jitter 0) ∧
    List.Chain' (· ≤ ·) (retryOnConflict defaultBackoff (fun _ => 0) wFn6).2.2) :=
  ⟨⟨by norm_num [defaultBackoff], by norm_num [defaultBackoff],
      by norm_num [defaultBackoff], by norm_num [defaultBackoff],
      by norm_num [defaultBackoff], fun _ => ⟨le_refl 0, by norm_num⟩,
      fun j _ => ⟨.conflict "c", rfl, rfl⟩⟩,
    retry_exhaustion_backoff defaultBackoff (fun _ => 0) wFn6
      (by norm_num [defaultBackoff]) (by norm_num [defaultBackoff])
      (by norm_num [defaultBackoff]) (by norm_num [defaultBackoff])
      (by norm_num [defaultBackoff]) (fun _ => ⟨le_refl 0, by norm_num⟩)
      (fun j _ => ⟨.conflict "c", rfl, rfl⟩)⟩

theorem retry_refetch_amended_witness :
    (∀ i, (attemptOut (fun j o => getAndUpdate ((fun _ => wStore) j) o wId) wObj
        i).calls.head? = some .get) ∧
    (∀ i, (attemptOut (fun j o => getAndPatch ((fun _ => wStore) j) o none) wObj
        i).calls.head? = some .get) ∧
    (∀ i, (attemptOut (fun j o => createOrPatchWithJsonMerge ((fun _ => wStore) j) o wId)
        wObj i).calls.head? = some .get) ∧
    (∀ i, (attemptOut (fun j o => createIfNotExistAttempt ((fun _ => wStore) j) o) wObj
        i).calls.head? = some .get) ∧
    (∀ i, i < (UpdateStatus (NewClient []) (fun _ => wStore) (fun _ => 0) wObj).attempts →
        (attemptOut (fun j o => updateStatusAttempt ((fun _ => wStore) j) o) wObj i).calls
          = [.statusUpdate wObj]) :=
  retry_refetch_amended (NewClient []) (fun _ => wStore) (fun _ => 0) wObj wId none

theorem createIfNotExist_amended_witness :
    1 ≤ (NewClient []).backoff.steps ∧
    ((∀ cur, ((fun _ => wStore) 0).getRes = .ok cur →
        (CreateIfNotExist (NewClient []) (fun _ => wStore) (fun _ => 0) wObj).err = none ∧
        (CreateIfNotExist (NewClient []) (fun _ => wStore) (fun _ => 0) wObj).calls
          = [.get]) ∧
    (∀ e o', ((fun _ => wStore) 0).getRes = .error e →
        ((fun _ => wStore) 0).createRes wObj = .ok o' →
        (CreateIfNotExist (NewClient []) (fun _ => wStore) (fun _ => 0) wObj).err = none ∧
        (CreateIfNotExist (NewClient []) (fun _ => wStore) (fun _ => 0) wObj).calls
          = [.get, .create wObj]) ∧
    (∀ e e', ((fun _ => wStore) 0).getRes = .error e →
        ((fun _ => wStore) 0).createRes wObj = .error e' →
        e'.isAlreadyExists = true →
        (CreateIfNotExist (NewClient []) (fun _ => wStore) (fun _ => 0) wObj).err = none ∧
        (CreateIfNotExist (NewClient []) (fun _ => wStore) (fun _ => 0) wObj).calls
          = [.get, .create wObj]) ∧
    (∀ e e', ((fun _ => wStore) 0).getRes = .error e →
        ((fun _ => wStore) 0).createRes wObj = .error e' →
        e'.isAlreadyExists = false → e'.isConflict = false →
        (CreateIfNotExist (NewClient []) (fun _ => wStore) (fun _ => 0) wObj).err
          = some e' ∧
        (CreateIfNotExist (NewClient []) (fun _ => wStore) (fun _ => 0) wObj).calls
          = [.get, .create wObj])) :=
  ⟨by norm_num [NewClient, ApplyOptions, defaultBackoff],
    createIfNotExist_amended (NewClient []) (fun _ => wStore) (fun _ => 0) wObj
      (by norm_num [NewClient, ApplyOptions, defaultBackoff])⟩

theorem getAndPatch_nil_mutator_noop_witness :
    (1 ≤ (NewClient []).backoff.steps ∧ wStore.getRes = .ok wObj) ∧
    ((GetAndPatch (NewClient []) (fun _ => wStore) (fun _ => 0) wObj none).result
        = OperationResultNone ∧
      (GetAndPatch (NewClient []) (fun _ => wStore) (fun _ => 0) wObj none).err = none ∧
      (GetAndPatch (NewClient []) (fun _ => wStore) (fun _ => 0) wObj none).calls
        = [.get]) :=
  ⟨⟨by norm_num [NewClient, ApplyOptions, defaultBackoff], rfl⟩,
    getAndPatch_nil_mutator_noop (NewClient []) (fun _ => wStore) (fun _ => 0) wObj wObj
      (by norm_num [NewClient, ApplyOptions, defaultBackoff]) rfl⟩

end KRT
